import Mathlib

/-
Verification of the earthquakes ETL pipeline
(`etl_project/pipelines/earthquakes.py`).

The pipeline module under `src/` orchestrates: a start metadata record, an
extract (HTTP fetch), two `transform` calls with hard-coded selection lists,
two `load` calls in "upsert" mode against two SQL table definitions, and an
end metadata record, all driven by a `while True` scheduler loop.

The helper modules it imports (`etl_project.assets.earthquakes`,
`etl_project.assets.metadata_logging`, `etl_project.connectors.*`) are part
of the repository but their sources are not available here; where a claim
depends on them they are modelled from the specification, and each such
definition's doc comment says so.
-/

namespace Etl

/-- A nested JSON-like value, the shape of one feature record returned by
the earthquake feed: scalar leaves, arrays (kept as leaves by the
flattening, e.g. `geometry.coordinates`), and nested objects given as
ordered association lists. -/
inductive Json where
  | null : Json
  | str : String → Json
  | num : Int → Json
  | boolean : Bool → Json
  | arr : List Json → Json
  | obj : List (String × Json) → Json

/-- Dot-join a key onto a (possibly empty) path, producing dotted column
keys such as `properties.mag`. -/
def dotJoin (pre k : String) : String :=
  if pre = "" then k else pre ++ "." ++ k

mutual
/-- Modelled from the spec: the flattening step of `transform` from
`etl_project.assets.earthquakes` (not under `src/`): "flattens nested
properties into dot-joined keys". Objects are recursively flattened with
dot-joined keys; every non-object value (scalars and arrays) is a leaf. -/
def flattenJson (pre : String) : Json → List (String × Json)
  | Json.obj fields => flattenFields pre fields
  | v => [(pre, v)]

/-- Flattens each field of an object under the given key path. -/
def flattenFields (pre : String) : List (String × Json) → List (String × Json)
  | [] => []
  | (k, v) :: rest => flattenJson (dotJoin pre k) v ++ flattenFields pre rest
end

/-- The flattened key-value view of one feature (top level has an empty
path so top-level keys keep their plain names). -/
def flatten (f : Json) : List (String × Json) := flattenJson "" f

/-- The cell a flattened feature yields for one requested dotted path:
the first value stored under that key, and `null` when the feature is
missing the path. -/
def cellOf (f : Json) (path : String) : Json :=
  ((flatten f).lookup path).getD Json.null

/-- One output row: the requested paths in selection-list order, each
paired with the cell value the feature yields for it. -/
def projectRow (f : Json) (selection_list : List String) : List (String × Json) :=
  selection_list.map (fun p => (p, cellOf f p))

/-- Modelled from the spec: `transform` from
`etl_project.assets.earthquakes` (not under `src/`): "For each feature,
flattens nested properties into dot-joined keys, then selects exactly the
requested paths, preserving their order as columns, dropping all other
fields. A feature missing a requested path yields a null value for that
cell, not an error. Row order follows input feature order." -/
def transform (df : List Json) (selection_list : List String) : List (List (String × Json)) :=
  df.map (fun f => projectRow f selection_list)

/-- The first selection list passed to `transform` by `pipeline`
(verbatim from the source, commented-out entries excluded). -/
def selection_list_1 : List String :=
  ["type",
   "id",
   "properties.place",
   "properties.title",
   "properties.time",
   "properties.updated",
   "properties.nst",
   "properties.dmin",
   "properties.rms"]

/-- The second selection list passed to `transform` by `pipeline`
(verbatim from the source). -/
def selection_list_2 : List String :=
  ["id",
   "properties.mag",
   "properties.gap",
   "properties.magType",
   "geometry.coordinates"]

/-- Exceptions that can arise at run time; all of them derive from
Python's `BaseException`, including the process-control exceptions
`KeyboardInterrupt` and `SystemExit`. -/
inductive PyExc where
  | fetchError : PyExc
  | loadError : PyExc
  | keyboardInterrupt : PyExc
  | systemExit : PyExc
  | metaDbError : PyExc
  | generic : String → PyExc
deriving DecidableEq

/-- A SQL column type as used by the two `Table` definitions in
`pipeline` (sqlalchemy `String`, `String(500)`, `TIMESTAMP`, `NUMERIC`). -/
inductive SqlType where
  | sqlString : SqlType
  | sqlStringN : Nat → SqlType
  | sqlTimestamp : SqlType
  | sqlNumeric : SqlType
deriving DecidableEq

/-- One `Column(...)` of a sqlalchemy `Table` definition. -/
structure ColumnSpec where
  name : String
  ty : SqlType
  primaryKey : Bool
deriving DecidableEq

/-- A sqlalchemy `Table` definition: a table name and its ordered columns. -/
structure TableSpec where
  name : String
  columns : List ColumnSpec
deriving DecidableEq

/-- The names of the primary-key columns of a table definition. -/
def primaryKeys (t : TableSpec) : List String :=
  (t.columns.filter (fun c => c.primaryKey)).map (fun c => c.name)

/-- The first `Table` built by `pipeline`:
`table_{table_name}_data` with `id` as primary key (commented-out columns
excluded, verbatim from the source). -/
def tableOne (table_name : String) : TableSpec :=
  { name := "table_" ++ table_name ++ "_data",
    columns :=
      [⟨"type", SqlType.sqlString, false⟩,
       ⟨"id", SqlType.sqlString, true⟩,
       ⟨"properties.place", SqlType.sqlString, false⟩,
       ⟨"properties.title", SqlType.sqlString, false⟩,
       ⟨"properties.time", SqlType.sqlTimestamp, false⟩,
       ⟨"properties.updated", SqlType.sqlTimestamp, false⟩,
       ⟨"properties.nst", SqlType.sqlStringN 500, false⟩,
       ⟨"properties.dmin", SqlType.sqlStringN 500, false⟩,
       ⟨"properties.rms", SqlType.sqlStringN 500, false⟩] }

/-- The second `Table` built by `pipeline`:
`table_{table_name}_2_data` with `id` as primary key (verbatim from the
source). -/
def tableTwo (table_name : String) : TableSpec :=
  { name := "table_" ++ table_name ++ "_2_data",
    columns :=
      [⟨"id", SqlType.sqlString, true⟩,
       ⟨"properties.mag", SqlType.sqlStringN 500, false⟩,
       ⟨"properties.gap", SqlType.sqlNumeric, false⟩,
       ⟨"properties.magType", SqlType.sqlString, false⟩,
       ⟨"geometry.coordinates", SqlType.sqlString, false⟩] }

/-- One observable action of the pipeline body, in program order:
a log line, a `transform` call (recording the selection list passed),
or a `load` call (recording the table definition and load method). -/
inductive PipelineEvent where
  | logInfo : String → PipelineEvent
  | transformCall : List String → PipelineEvent
  | loadCall : TableSpec → String → PipelineEvent
deriving DecidableEq

/-- The external outcomes one invocation of the pipeline body depends on:
the fetch result from the Earthquake API and the results of the two
`load` calls (each either succeeds or raises). `table_name` is the
`config.get('table_name')` value. -/
structure PipelineEnv where
  table_name : String
  fetchResult : Except PyExc (List Json)
  load1Result : Except PyExc Unit
  load2Result : Except PyExc Unit

/-- The pipeline body `pipeline(config, pipeline_logging)` from the
source, as the sequence of events it performs together with its outcome
(normal return or the first exception raised). Extraction happens first;
the two `transform` calls run next (pure, they cannot fail); then the two
`load` calls in "upsert" mode, each of which may raise. An exception at
any stage aborts the remaining stages. -/
def pipeline (env : PipelineEnv) : Except PyExc Unit × List PipelineEvent :=
  let evs0 : List PipelineEvent :=
    [PipelineEvent.logInfo "Starting pipeline run",
     PipelineEvent.logInfo "Getting ENV variables",
     PipelineEvent.logInfo "Creating Earthquake API client",
     PipelineEvent.logInfo "Extracting data from Earthquake API"]
  match env.fetchResult with
  | Except.error e => (Except.error e, evs0)
  | Except.ok _ =>
    let evs1 : List PipelineEvent := evs0 ++
      [PipelineEvent.logInfo "Transform dataframes",
       PipelineEvent.transformCall selection_list_1,
       PipelineEvent.transformCall selection_list_2,
       PipelineEvent.logInfo "Loading data to postgres",
       PipelineEvent.loadCall (tableOne env.table_name) "upsert"]
    match env.load1Result with
    | Except.error e => (Except.error e, evs1)
    | Except.ok _ =>
      let evs2 : List PipelineEvent := evs1 ++
        [PipelineEvent.logInfo "Pipeline run successful Table 1",
         PipelineEvent.loadCall (tableTwo env.table_name) "upsert"]
      match env.load2Result with
      | Except.error e => (Except.error e, evs2)
      | Except.ok _ =>
        (Except.ok (), evs2 ++ [PipelineEvent.logInfo "Pipeline run successful Table 2"])

/-- The selection lists of the `transform` calls in an event list, in
order. -/
def transformCallsOf (evs : List PipelineEvent) : List (List String) :=
  evs.filterMap (fun ev =>
    match ev with
    | PipelineEvent.transformCall sel => some sel
    | _ => none)

/-- Holds (`true`) iff every `load` call in the event list uses the
"upsert" load method against a table whose primary key is exactly `id`. -/
def loadCallsUpsertById (evs : List PipelineEvent) : Bool :=
  evs.all (fun ev =>
    match ev with
    | PipelineEvent.loadCall t m => m == "upsert" && primaryKeys t == ["id"]
    | _ => true)

/-- Status values of `MetaDataLoggingStatus` used by `run_pipeline`. -/
inductive MetaDataLoggingStatus where
  | run_success : MetaDataLoggingStatus
  | run_failure : MetaDataLoggingStatus
deriving DecidableEq

/-- The external outcomes one `run_pipeline` invocation depends on: the
pipeline-body environment and the results of the three possible
`metadata_logger.log` calls (the start call, the success end call and the
failure end call), each of which either succeeds or raises. -/
structure RunEnv where
  penv : PipelineEnv
  metaStartResult : Except PyExc Unit
  metaSuccessResult : Except PyExc Unit
  metaFailureResult : Except PyExc Unit

/-- What one `run_pipeline` invocation did: the metadata rows inserted in
order (modelled from the spec: each successful `MetaDataLogging.log` call
— the class is not under `src/` — inserts one new row, `none` status for
the start marker, `some` status for an end marker; a row, once inserted,
is never changed), the exception logged by `logger.error` in the handler
if any, and the outcome (`ok` for a normal return, `error e` when
`run_pipeline` itself raises `e` to its caller). -/
structure RunResult where
  metaRows : List (Option MetaDataLoggingStatus)
  errorLog : Option PyExc
  outcome : Except PyExc Unit

/-- The `except BaseException` handler of `run_pipeline`: logs the caught
exception `e` and calls `metadata_logger.log(status=RUN_FAILURE, ...)`.
That call runs inside the handler, outside any try: if it raises, its
exception propagates out of `run_pipeline`. -/
def runHandler (env : RunEnv) (rows : List (Option MetaDataLoggingStatus)) (e : PyExc) :
    RunResult :=
  match env.metaFailureResult with
  | Except.ok _ =>
    { metaRows := rows ++ [some MetaDataLoggingStatus.run_failure],
      errorLog := some e,
      outcome := Except.ok () }
  | Except.error e2 =>
    { metaRows := rows, errorLog := some e, outcome := Except.error e2 }

/-- The orchestrator `run_pipeline` from the source. The try block covers, in order: the
start `metadata_logger.log()` call, the pipeline body, and the success
`metadata_logger.log(status=RUN_SUCCESS, ...)` call; `except
BaseException as e` routes any of their exceptions to the handler. A log
call that raises inserts no row. -/
def run_pipeline (env : RunEnv) : RunResult :=
  match env.metaStartResult with
  | Except.error e => runHandler env [] e
  | Except.ok _ =>
    match (pipeline env.penv).1 with
    | Except.error e => runHandler env [none] e
    | Except.ok _ =>
      match env.metaSuccessResult with
      | Except.error e => runHandler env [none] e
      | Except.ok _ =>
        { metaRows := [none, some MetaDataLoggingStatus.run_success],
          errorLog := none,
          outcome := Except.ok () }

/-- A destination-table row for the Relational Sink: column name to cell
value, generic in the cell type the database driver stores. -/
abbrev Row (α : Type) := List (String × α)

/-- The value a row holds in its primary-key column. -/
def keyOf {α : Type} (pk : String) (r : Row α) : Option α :=
  r.lookup pk

/-- Modelled from the spec: one row of the `upsert` primitive of
`PostgreSqlClient.write_to_table` (not under `src/`): "insert a row if
its primary key is absent, otherwise update the existing row with the
same key". -/
def upsertRow {α : Type} [DecidableEq α] (pk : String) (t : List (Row α)) (r : Row α) :
    List (Row α) :=
  if t.any (fun r0 => keyOf pk r0 = keyOf pk r) then
    t.map (fun r0 => if keyOf pk r0 = keyOf pk r then r else r0)
  else
    t ++ [r]

/-- Modelled from the spec: the `upsert` load mode of the Relational
Sink (not under `src/`), applied "row-by-row within a single logical
operation" over the rows of a projected table. -/
def upsert {α : Type} [DecidableEq α] (pk : String) (t : List (Row α)) (rows : List (Row α)) :
    List (Row α) :=
  rows.foldl (upsertRow pk) t

/-- Scheduler observables: a pipeline invocation starting, an invocation
returning, and the loop sleeping for a number of seconds. -/
inductive SchedEvent where
  | runStart : SchedEvent
  | runEnd : SchedEvent
  | sleepSec : Nat → SchedEvent
deriving DecidableEq

/-- The `schedule:` section of the config file: `run_seconds` between
invocations and `poll_seconds` of sleep per loop iteration. -/
structure ScheduleCfg where
  run_seconds : Nat
  poll_seconds : Nat

/-- Scheduler-loop state: seconds elapsed since the job last ran (the
bookkeeping the `schedule` library keeps for its single registered job). -/
structure LoopState where
  sinceRun : Nat

/-- Modelled from the spec: `schedule.run_pending()` for the single job
registered by the entry point (the `schedule` library is an external
collaborator): when at least `run_seconds` have elapsed it invokes
`run_pipeline` synchronously — the invocation starts and, unless it
raises, returns before `run_pending` does — otherwise it does nothing.
Returns the new state, the events and the exception if one escaped. -/
def run_pending (cfg : ScheduleCfg) (env : RunEnv) (s : LoopState) :
    LoopState × List SchedEvent × Option PyExc :=
  if cfg.run_seconds ≤ s.sinceRun then
    match (run_pipeline env).outcome with
    | Except.ok _ => (⟨0⟩, [SchedEvent.runStart, SchedEvent.runEnd], none)
    | Except.error e => (s, [SchedEvent.runStart], some e)
  else
    (s, [], none)

/-- One iteration of the `while True` loop from the source:
`schedule.run_pending()` then
`time.sleep(pipeline_config.get("schedule").get("poll_seconds"))`.
An exception escaping `run_pending` skips the sleep and aborts the loop
(the process crashes); otherwise the iteration always ends in a sleep of
exactly `poll_seconds`. -/
def loopIter (cfg : ScheduleCfg) (env : RunEnv) (s : LoopState) :
    LoopState × List SchedEvent × Option PyExc :=
  match run_pending cfg env s with
  | (s2, evs, none) =>
    (⟨s2.sinceRun + cfg.poll_seconds⟩, evs ++ [SchedEvent.sleepSec cfg.poll_seconds], none)
  | (s2, evs, some e) => (s2, evs, some e)

/-- The loop condition of the scheduler loop, taken verbatim from the
source's `while True:`: it never becomes false, so the loop can only be
left by an exception (an abnormal exit), never by a normal exit. -/
def loopCondition : LoopState → Bool := fun _ => true

/-- Running the scheduler loop for finitely many iterations, each with
its own run environment: the concatenated event trace and the exception
that aborted the loop, if any. -/
def schedulerRun (cfg : ScheduleCfg) : List RunEnv → LoopState → List SchedEvent × Option PyExc
  | [], _ => ([], none)
  | env :: rest, s =>
    match loopIter cfg env s with
    | (s2, evs, none) =>
      let t := schedulerRun cfg rest s2
      (evs ++ t.1, t.2)
    | (_, evs, some e) => (evs, some e)

/-- Holds (`true`) iff at every point of the trace at most one pipeline
invocation is in flight: `d` invocations are open, a start requires none
open, an end requires exactly one open. -/
def atMostOneRunning : Nat → List SchedEvent → Bool
  | _, [] => true
  | d, SchedEvent.runStart :: t => d == 0 && atMostOneRunning 1 t
  | d, SchedEvent.runEnd :: t => d == 1 && atMostOneRunning 0 t
  | d, SchedEvent.sleepSec _ :: t => atMostOneRunning d t

/-- The sleep events of a trace. -/
def sleepsOf (evs : List SchedEvent) : List SchedEvent :=
  evs.filter (fun ev =>
    match ev with
    | SchedEvent.sleepSec _ => true
    | _ => false)

/-- The path of the pipeline module, whose `__file__` the entry point
rewrites to find its config file. -/
def pipeline_file_path : String := "etl_project/pipelines/earthquakes.py"

/-- Python `str.replace` on character lists: replaces every
non-overlapping occurrence of `pat`, scanning left to right. The fuel
argument (instantiated with the input length, which bounds the number of
recursive steps) only makes the recursion structural. -/
def pyReplaceList (pat repl : List Char) : Nat → List Char → List Char
  | _, [] => []
  | 0, l => l
  | fuel + 1, c :: rest =>
    if pat ≠ [] ∧ pat.isPrefixOf (c :: rest) then
      repl ++ pyReplaceList pat repl fuel (rest.drop (pat.length - 1))
    else
      c :: pyReplaceList pat repl fuel rest

/-- Python `s.replace(pat, repl)`. -/
def pyReplace (s pat repl : String) : String :=
  String.mk (pyReplaceList pat.data repl.data s.data.length s.data)

/-- The config path the entry point computes:
`__file__.replace(".py", ".yaml")`. -/
def yaml_file_path : String := pyReplace pipeline_file_path ".py" ".yaml"

/-- The values the entry point reads from the config file. -/
structure StartupConfig where
  name : String
  sched : ScheduleCfg

/-- The startup phase of `__main__`: if the yaml file exists the config
is loaded and returned for scheduling; otherwise `raise Exception(...)`
aborts startup. -/
def mainStartup (yamlExists : Bool) (cfg : StartupConfig) : Except String StartupConfig :=
  if yamlExists then
    Except.ok cfg
  else
    Except.error ("Missing " ++ yaml_file_path ++
      " file! Please create the yaml file with at least a `name` key for the pipeline name.")

/-- The whole `__main__` block after the logging client is built: startup
(config load, which may raise), then `schedule.every(run_seconds)` and the
`while True` loop. A startup failure yields `error msg` before any loop
iteration runs; otherwise the loop trace is produced. -/
def mainEntry (yamlExists : Bool) (cfg : StartupConfig) (envs : List RunEnv) :
    Except String (List SchedEvent × Option PyExc) :=
  match mainStartup yamlExists cfg with
  | Except.error msg => Except.error msg
  | Except.ok c => Except.ok (schedulerRun c.sched envs ⟨0⟩)

/-- A sample feature with nested `properties` but no `properties.gap`
field, used to evaluate the transform theorems on a concrete input. -/
def featureA : Json :=
  Json.obj
    [("type", Json.str "Feature"),
     ("id", Json.str "ak0241"),
     ("properties", Json.obj [("mag", Json.num 5), ("place", Json.str "Alaska")])]

/-- C7: for every raw feature collection and selection list, `transform`
returns one row per input feature with rows in input order (row `i` is
the projection of feature `i`), each row's column order equals the
selection-list order, and a feature missing a requested path yields a
`null` cell for that path rather than an error. -/
theorem transform_project_spec (df : List Json) (selection_list : List String) :
    (transform df selection_list).length = df.length
    ∧ (∀ i : Nat, (transform df selection_list)[i]? =
        (df[i]?).map (fun f => projectRow f selection_list))
    ∧ (∀ r, r ∈ transform df selection_list → r.map Prod.fst = selection_list)
    ∧ (∀ f ∈ df, ∀ p ∈ selection_list, (flatten f).lookup p = none →
        (p, Json.null) ∈ projectRow f selection_list) := by
  refine ⟨by simp [transform], ?_, ?_, ?_⟩
  · intro i
    simp [transform]
  · intro r hr
    simp only [transform, List.mem_map] at hr
    obtain ⟨f, _, rfl⟩ := hr
    induction selection_list with
    | nil => rfl
    | cons a t ih => simpa [projectRow] using ih
  · intro f _ p hp hnone
    refine List.mem_map.mpr ⟨p, hp, ?_⟩
    simp [cellOf, hnone]

/-- C7 witness: on a single concrete feature that lacks
`properties.gap`, the transform yields one row with the requested column
order and a null cell for the missing path. -/
theorem transform_project_spec_witness :
    (transform [featureA] ["id", "properties.mag", "properties.gap"]).length = 1
    ∧ projectRow featureA ["id", "properties.mag", "properties.gap"] ∈
        transform [featureA] ["id", "properties.mag", "properties.gap"]
    ∧ (projectRow featureA ["id", "properties.mag", "properties.gap"]).map Prod.fst =
        ["id", "properties.mag", "properties.gap"]
    ∧ ("properties.gap", Json.null) ∈
        projectRow featureA ["id", "properties.mag", "properties.gap"] := by
  have h := transform_project_spec [featureA] ["id", "properties.mag", "properties.gap"]
  have hmem : projectRow featureA ["id", "properties.mag", "properties.gap"] ∈
      transform [featureA] ["id", "properties.mag", "properties.gap"] := by
    simp [transform]
  refine ⟨h.1, hmem, h.2.2.1 _ hmem, ?_⟩
  exact h.2.2.2 featureA (by simp) "properties.gap" (by simp) (by rfl)

/-- C3 counterexample: the two selection lists passed to `transform` by
`pipeline` are not disjoint — the dotted path `id` appears in both. -/
theorem selection_lists_share_id :
    "id" ∈ selection_list_1 ∧ "id" ∈ selection_list_2 := by
  constructor <;> simp [selection_list_1, selection_list_2]

/-- C3 amended: in every run that reaches the transform stage (the fetch
succeeded), `transform` is invoked exactly twice, with the two hard-coded
selection lists, and those lists overlap in exactly the key path `id`
(all other paths are distinct between them). -/
theorem transform_twice_overlap_only_id (env : PipelineEnv) (df : List Json)
    (h : env.fetchResult = Except.ok df) :
    transformCallsOf (pipeline env).2 = [selection_list_1, selection_list_2]
    ∧ selection_list_1.inter selection_list_2 = ["id"] := by
  obtain ⟨tn, fr, l1, l2⟩ := env
  simp only at h
  subst h
  refine ⟨?_, by decide⟩
  cases l1 <;> cases l2 <;> rfl

/-- A pipeline environment in which every external call succeeds and the
fetch returns an empty feature list. -/
def penvOk : PipelineEnv :=
  { table_name := "earthquakes",
    fetchResult := Except.ok [],
    load1Result := Except.ok (),
    load2Result := Except.ok () }

/-- C3 witness: with a concrete all-success environment, the two
transform calls and the overlap are as stated. -/
theorem transform_twice_overlap_only_id_witness :
    transformCallsOf (pipeline penvOk).2 = [selection_list_1, selection_list_2]
    ∧ selection_list_1.inter selection_list_2 = ["id"] :=
  transform_twice_overlap_only_id penvOk [] rfl

/-- C1: in every run whose pipeline body raises (fetch, transform or
load) and whose Metadata Recorder calls themselves succeed,
`run_pipeline` catches the exception, logs it via `logger.error`,
records a failure metadata row, and returns normally, so the scheduler
iteration executing this run does not crash and the loop reaches its
next tick. -/
theorem run_pipeline_catches_pipeline_error (env : RunEnv) (e : PyExc)
    (hs : env.metaStartResult = Except.ok ())
    (hf : env.metaFailureResult = Except.ok ())
    (hb : (pipeline env.penv).1 = Except.error e) :
    (run_pipeline env).outcome = Except.ok ()
    ∧ (run_pipeline env).errorLog = some e
    ∧ (run_pipeline env).metaRows = [none, some MetaDataLoggingStatus.run_failure]
    ∧ ∀ (cfg : ScheduleCfg) (s : LoopState), (loopIter cfg env s).2.2 = none := by
  obtain ⟨p, ms, msc, mf⟩ := env
  simp only at hs hf hb
  subst hs hf
  have hrun : run_pipeline ⟨p, Except.ok (), msc, Except.ok ()⟩ =
      { metaRows := [none, some MetaDataLoggingStatus.run_failure],
        errorLog := some e,
        outcome := Except.ok () } := by
    simp [run_pipeline, hb, runHandler]
  refine ⟨by rw [hrun], by rw [hrun], by rw [hrun], ?_⟩
  intro cfg s
  by_cases hc : cfg.run_seconds ≤ s.sinceRun <;>
    simp [loopIter, run_pending, hrun, hc]

/-- A run environment whose pipeline body fails at the fetch stage with
`FetchError` and whose metadata calls all succeed. -/
def envBodyFail : RunEnv :=
  { penv :=
      { table_name := "earthquakes",
        fetchResult := Except.error PyExc.fetchError,
        load1Result := Except.ok (),
        load2Result := Except.ok () },
    metaStartResult := Except.ok (),
    metaSuccessResult := Except.ok (),
    metaFailureResult := Except.ok () }

/-- C1 witness: on the concrete fetch-failure run, `run_pipeline`
returns normally, logs the `FetchError`, writes the failure row, and the
scheduler iteration does not crash. -/
theorem run_pipeline_catches_pipeline_error_witness :
    (run_pipeline envBodyFail).outcome = Except.ok ()
    ∧ (run_pipeline envBodyFail).errorLog = some PyExc.fetchError
    ∧ (run_pipeline envBodyFail).metaRows = [none, some MetaDataLoggingStatus.run_failure]
    ∧ (loopIter ⟨30, 5⟩ envBodyFail ⟨60⟩).2.2 = none := by
  have h := run_pipeline_catches_pipeline_error envBodyFail PyExc.fetchError rfl rfl rfl
  exact ⟨h.1, h.2.1, h.2.2.1, h.2.2.2 ⟨30, 5⟩ ⟨60⟩⟩

/-- A run environment whose start-marker metadata call raises and whose
other calls (and the pipeline body) succeed. -/
def envStartFail : RunEnv :=
  { penv := penvOk,
    metaStartResult := Except.error PyExc.metaDbError,
    metaSuccessResult := Except.ok (),
    metaFailureResult := Except.ok () }

/-- C2 counterexample: the start-marker Metadata Recorder call runs
inside the try block, not outside it — when it raises, `run_pipeline`
catches the exception and returns normally instead of propagating it to
its caller (it even records a failure row, which is then the run's only
metadata row). -/
theorem meta_start_failure_swallowed :
    (run_pipeline envStartFail).outcome = Except.ok ()
    ∧ (run_pipeline envStartFail).errorLog = some PyExc.metaDbError
    ∧ (run_pipeline envStartFail).metaRows = [some MetaDataLoggingStatus.run_failure] :=
  ⟨rfl, rfl, rfl⟩

/-- C2 amended: only the failure-path Metadata Recorder call — the one
made inside the `except` handler — executes outside try/except
protection, so a failure it raises propagates to `run_pipeline`'s
caller; the start-marker call and the success end-marker call execute
inside the try block and their failures are caught by the handler. -/
theorem meta_failure_log_propagates (env : RunEnv) (e efail : PyExc)
    (hs : env.metaStartResult = Except.ok ())
    (hb : (pipeline env.penv).1 = Except.error e)
    (hf : env.metaFailureResult = Except.error efail) :
    (run_pipeline env).outcome = Except.error efail := by
  obtain ⟨p, ms, msc, mf⟩ := env
  simp only at hs hf hb
  subst hs hf
  simp [run_pipeline, hb, runHandler]

/-- A run environment in which the pipeline body fails and the
failure-path metadata call also fails. -/
def envBodyAndMetaFail : RunEnv :=
  { penv :=
      { table_name := "earthquakes",
        fetchResult := Except.error PyExc.fetchError,
        load1Result := Except.ok (),
        load2Result := Except.ok () },
    metaStartResult := Except.ok (),
    metaSuccessResult := Except.ok (),
    metaFailureResult := Except.error PyExc.metaDbError }

/-- C2 amended witness: when the concrete run's body raises `FetchError`
and the failure-path metadata call raises `metaDbError`, `run_pipeline`
propagates the metadata exception to its caller. -/
theorem meta_failure_log_propagates_witness :
    (run_pipeline envBodyAndMetaFail).outcome = Except.error PyExc.metaDbError :=
  meta_failure_log_propagates envBodyAndMetaFail PyExc.fetchError PyExc.metaDbError rfl rfl rfl

/-- C4: in every run whose Metadata Recorder calls succeed, exactly two
metadata rows are inserted, in order: first the start row with no
status, then an end row whose status is `run_success` when the pipeline
body returned normally and `run_failure` when it raised. Rows are only
ever appended, never updated. -/
theorem run_two_meta_rows (env : RunEnv)
    (hs : env.metaStartResult = Except.ok ())
    (hsc : env.metaSuccessResult = Except.ok ())
    (hf : env.metaFailureResult = Except.ok ()) :
    ∃ st : MetaDataLoggingStatus,
      (run_pipeline env).metaRows = [none, some st]
      ∧ ((pipeline env.penv).1 = Except.ok () → st = MetaDataLoggingStatus.run_success)
      ∧ (∀ e, (pipeline env.penv).1 = Except.error e →
          st = MetaDataLoggingStatus.run_failure) := by
  obtain ⟨p, ms, msc, mf⟩ := env
  simp only at hs hsc hf
  subst hs hsc hf
  cases hb : (pipeline p).1 with
  | ok u =>
    refine ⟨MetaDataLoggingStatus.run_success, ?_, fun _ => rfl, fun e he => ?_⟩
    · simp [run_pipeline, hb]
    · exact Except.noConfusion he
  | error e =>
    refine ⟨MetaDataLoggingStatus.run_failure, ?_, fun ho => ?_, fun _ _ => rfl⟩
    · simp [run_pipeline, hb, runHandler]
    · exact Except.noConfusion ho

/-- A run environment in which everything succeeds. -/
def envAllOk : RunEnv :=
  { penv := penvOk,
    metaStartResult := Except.ok (),
    metaSuccessResult := Except.ok (),
    metaFailureResult := Except.ok () }

/-- C4 witness: the concrete all-success run inserts exactly the start
row followed by a `run_success` end row. -/
theorem run_two_meta_rows_witness :
    (run_pipeline envAllOk).metaRows = [none, some MetaDataLoggingStatus.run_success] := by
  obtain ⟨st, h1, h2, _⟩ := run_two_meta_rows envAllOk rfl rfl rfl
  rw [h1, h2 rfl]

/-- C10: `run_pipeline`'s handler is `except BaseException`, so whatever
exception the pipeline body raises — including the process-control
exceptions `KeyboardInterrupt` and `SystemExit`, here constructors of
`PyExc` over which `e` ranges — is swallowed: provided the failure-path
metadata call does not itself raise, the run records a failure end row
and `run_pipeline` returns normally, propagating nothing. -/
theorem run_pipeline_swallows_base_exceptions (env : RunEnv)
    (hs : env.metaStartResult = Except.ok ())
    (hf : env.metaFailureResult = Except.ok ()) :
    ∀ e : PyExc, (pipeline env.penv).1 = Except.error e →
      (run_pipeline env).outcome = Except.ok ()
      ∧ (run_pipeline env).metaRows.getLast? =
          some (some MetaDataLoggingStatus.run_failure) := by
  obtain ⟨p, ms, msc, mf⟩ := env
  simp only at hs hf
  subst hs hf
  intro e hb
  simp [run_pipeline, hb, runHandler]

/-- A run environment whose pipeline body raises `KeyboardInterrupt`
(modelling Ctrl-C arriving during `pipeline()`), with working metadata
calls. -/
def envInterrupted : RunEnv :=
  { penv :=
      { table_name := "earthquakes",
        fetchResult := Except.error PyExc.keyboardInterrupt,
        load1Result := Except.ok (),
        load2Result := Except.ok () },
    metaStartResult := Except.ok (),
    metaSuccessResult := Except.ok (),
    metaFailureResult := Except.ok () }

/-- C10 witness: a `KeyboardInterrupt` raised inside the pipeline body is
swallowed: the concrete run returns normally and ends with a failure
row. -/
theorem run_pipeline_swallows_base_exceptions_witness :
    (run_pipeline envInterrupted).outcome = Except.ok ()
    ∧ (run_pipeline envInterrupted).metaRows.getLast? =
        some (some MetaDataLoggingStatus.run_failure) :=
  run_pipeline_swallows_base_exceptions envInterrupted rfl rfl PyExc.keyboardInterrupt rfl

/-- The rows of a destination table whose primary-key column holds the
given value. -/
def rowsWithKey {α : Type} [DecidableEq α] (pk : String) (kv : Option α)
    (t : List (Row α)) : List (Row α) :=
  t.filter (fun r0 => decide (keyOf pk r0 = kv))

theorem rowsWithKey_append {α : Type} [DecidableEq α] (pk : String) (kv : Option α)
    (t s : List (Row α)) :
    rowsWithKey pk kv (t ++ s) = rowsWithKey pk kv t ++ rowsWithKey pk kv s := by
  simp [rowsWithKey, List.filter_append]

theorem rowsWithKey_map_self {α : Type} [DecidableEq α] (pk : String) (r : Row α)
    (t : List (Row α)) :
    rowsWithKey pk (keyOf pk r)
        (t.map (fun r0 => if keyOf pk r0 = keyOf pk r then r else r0)) =
      (rowsWithKey pk (keyOf pk r) t).map (fun _ => r) := by
  induction t with
  | nil => rfl
  | cons r0 t ih =>
    by_cases h0 : keyOf pk r0 = keyOf pk r
    · simp [rowsWithKey, List.filter_cons, h0] at ih ⊢
      exact ih
    · simp [rowsWithKey, List.filter_cons, h0] at ih ⊢
      exact ih

theorem rowsWithKey_upsertRow {α : Type} [DecidableEq α] (pk : String)
    (t : List (Row α)) (r : Row α)
    (ht : (rowsWithKey pk (keyOf pk r) t).length ≤ 1) :
    rowsWithKey pk (keyOf pk r) (upsertRow pk t r) = [r] := by
  unfold upsertRow
  split
  case isTrue h =>
    obtain ⟨x, hxmem, hxp⟩ := List.any_eq_true.mp h
    have hxin : x ∈ rowsWithKey pk (keyOf pk r) t :=
      List.mem_filter.mpr ⟨hxmem, hxp⟩
    have hlen1 : (rowsWithKey pk (keyOf pk r) t).length = 1 := by
      have hpos : 0 < (rowsWithKey pk (keyOf pk r) t).length :=
        List.length_pos.mpr (List.ne_nil_of_mem hxin)
      omega
    obtain ⟨y, hy⟩ := List.length_eq_one.mp hlen1
    rw [rowsWithKey_map_self pk r t, hy]
    rfl
  case isFalse h =>
    have hnil : rowsWithKey pk (keyOf pk r) t = [] := by
      rw [rowsWithKey, List.filter_eq_nil_iff]
      simp only [List.any_eq_true, not_exists, not_and] at h
      intro a ha
      simpa using h a ha
    rw [rowsWithKey_append, hnil]
    simp [rowsWithKey]

/-- C5: starting from any destination table that respects the
primary-key invariant for the given key value (at most one row holds
it), upserting a row `r1` and then a row `r2` with the same key value
leaves exactly one row for that key, and that row is `r2` — the second
call's values win; the first upsert inserts when the key is absent and
updates when it is present. -/
theorem upsert_twice_same_key {α : Type} [DecidableEq α] (pk : String)
    (t : List (Row α)) (r1 r2 : Row α)
    (hk : keyOf pk r1 = keyOf pk r2)
    (ht : (rowsWithKey pk (keyOf pk r2) t).length ≤ 1) :
    rowsWithKey pk (keyOf pk r2) (upsert pk (upsert pk t [r1]) [r2]) = [r2] := by
  have h1 : upsert pk t [r1] = upsertRow pk t r1 := rfl
  have h2 : upsert pk (upsertRow pk t r1) [r2] = upsertRow pk (upsertRow pk t r1) r2 := rfl
  rw [h1, h2]
  have e1 : rowsWithKey pk (keyOf pk r1) (upsertRow pk t r1) = [r1] :=
    rowsWithKey_upsertRow pk t r1 (by rw [hk]; exact ht)
  have ht2 : (rowsWithKey pk (keyOf pk r2) (upsertRow pk t r1)).length ≤ 1 := by
    rw [← hk, e1]
    simp
  exact rowsWithKey_upsertRow pk (upsertRow pk t r1) r2 ht2

/-- C5 witness: on an initially empty table, upserting
`{id ↦ a, v ↦ 1}` then `{id ↦ a, v ↦ 2}` by key `id` leaves exactly the
row `{id ↦ a, v ↦ 2}` for key `a`. -/
theorem upsert_twice_same_key_witness :
    rowsWithKey "id" (some "a")
        (upsert "id" (upsert "id" ([] : List (Row String)) [[("id", "a"), ("v", "1")]])
          [[("id", "a"), ("v", "2")]]) =
      [[("id", "a"), ("v", "2")]] := by
  have h := upsert_twice_same_key "id" ([] : List (Row String))
    [("id", "a"), ("v", "1")] [("id", "a"), ("v", "2")] rfl (by simp [rowsWithKey])
  simpa [keyOf] using h

/-- C6: for any configured `table_name`, both target table definitions
designate `id` as their only primary-key column, their table names and
ordered column lists are exactly the ones in the source's two `Table`
definitions, and every `load` call the pipeline body makes uses the
"upsert" load method against a table whose primary key is `id`. -/
theorem table_schemas_and_upsert_key (table_name : String) (env : PipelineEnv) :
    primaryKeys (tableOne table_name) = ["id"]
    ∧ primaryKeys (tableTwo table_name) = ["id"]
    ∧ (tableOne table_name).name = "table_" ++ table_name ++ "_data"
    ∧ (tableTwo table_name).name = "table_" ++ table_name ++ "_2_data"
    ∧ (tableOne table_name).columns.map ColumnSpec.name =
        ["type", "id", "properties.place", "properties.title", "properties.time",
         "properties.updated", "properties.nst", "properties.dmin", "properties.rms"]
    ∧ (tableTwo table_name).columns.map ColumnSpec.name =
        ["id", "properties.mag", "properties.gap", "properties.magType",
         "geometry.coordinates"]
    ∧ ((tableOne table_name).columns.map ColumnSpec.ty).take 6 =
        [SqlType.sqlString, SqlType.sqlString, SqlType.sqlString, SqlType.sqlString,
         SqlType.sqlTimestamp, SqlType.sqlTimestamp]
    ∧ (tableTwo table_name).columns.map ColumnSpec.ty =
        [SqlType.sqlString, SqlType.sqlStringN 500, SqlType.sqlNumeric,
         SqlType.sqlString, SqlType.sqlString]
    ∧ loadCallsUpsertById (pipeline env).2 = true := by
  obtain ⟨tn, fr, l1, l2⟩ := env
  refine ⟨rfl, rfl, rfl, rfl, rfl, rfl, rfl, rfl, ?_⟩
  cases fr <;> cases l1 <;> cases l2 <;> rfl

/-- C8: the scheduler loop is cooperative and endless — over any finite
number of iterations, the event trace never has two pipeline invocations
in flight at once (each invocation runs to completion within its
iteration); the loop condition `while True` is constantly true, so the
loop never exits normally; and when no run crashes the loop, every
iteration ends with a sleep of exactly the configured `poll_seconds`. -/
theorem scheduler_loop_spec (cfg : ScheduleCfg) (envs : List RunEnv) (s : LoopState) :
    atMostOneRunning 0 (schedulerRun cfg envs s).1 = true
    ∧ (∀ s2 : LoopState, loopCondition s2 = true)
    ∧ ((schedulerRun cfg envs s).2 = none →
        sleepsOf (schedulerRun cfg envs s).1 =
          List.replicate envs.length (SchedEvent.sleepSec cfg.poll_seconds)) := by
  refine ⟨?_, fun _ => rfl, ?_⟩
  · induction envs generalizing s with
    | nil => rfl
    | cons env rest ih =>
      by_cases hc : cfg.run_seconds ≤ s.sinceRun
      · cases ho : (run_pipeline env).outcome with
        | ok u =>
          simpa [schedulerRun, loopIter, run_pending, hc, ho, atMostOneRunning] using ih _
        | error e =>
          simp [schedulerRun, loopIter, run_pending, hc, ho, atMostOneRunning]
      · simpa [schedulerRun, loopIter, run_pending, hc, atMostOneRunning] using ih _
  · induction envs generalizing s with
    | nil =>
      intro _
      rfl
    | cons env rest ih =>
      intro hnone
      by_cases hc : cfg.run_seconds ≤ s.sinceRun
      · cases ho : (run_pipeline env).outcome with
        | ok u =>
          simp [schedulerRun, loopIter, run_pending, hc, ho, sleepsOf,
            List.replicate_succ] at hnone ⊢
          simpa [sleepsOf] using ih _ hnone
        | error e =>
          simp [schedulerRun, loopIter, run_pending, hc, ho] at hnone
      · simp [schedulerRun, loopIter, run_pending, hc, sleepsOf,
          List.replicate_succ] at hnone ⊢
        simpa [sleepsOf] using ih _ hnone

/-- C8 witness: two iterations with a due first run that succeeds — the
trace keeps at most one invocation in flight, the loop condition stays
true, and both iterations sleep the configured 5 seconds. -/
theorem scheduler_loop_spec_witness :
    atMostOneRunning 0 (schedulerRun ⟨30, 5⟩ [envAllOk, envBodyFail] ⟨30⟩).1 = true
    ∧ loopCondition ⟨0⟩ = true
    ∧ sleepsOf (schedulerRun ⟨30, 5⟩ [envAllOk, envBodyFail] ⟨30⟩).1 =
        List.replicate 2 (SchedEvent.sleepSec 5) := by
  have h := scheduler_loop_spec ⟨30, 5⟩ [envAllOk, envBodyFail] ⟨30⟩
  exact ⟨h.1, h.2.1 ⟨0⟩, h.2.2 rfl⟩

/-- C9: the entry point derives its config path from the pipeline
module's own path by rewriting the `.py` suffix to `.yaml` (so the
config file is colocated with the pipeline definition), and when that
file is absent, startup raises the fatal `Missing ... file!` exception
before the scheduler loop starts: `mainEntry` yields the error and no
scheduler trace for any config and any would-be runs. -/
theorem startup_config_colocated_and_fatal :
    yaml_file_path = "etl_project/pipelines/earthquakes.yaml"
    ∧ ∀ (cfg : StartupConfig) (envs : List RunEnv),
        mainEntry false cfg envs =
          Except.error ("Missing " ++ yaml_file_path ++
            " file! Please create the yaml file with at least a `name` key for the pipeline name.") := by
  refine ⟨?_, fun cfg envs => rfl⟩
  decide

end Etl
